import Mathlib

/-!
# Verification of the view-model builder of `src/lib/codegen.js`

This file gives a shallow embedding into Lean 4 of the core normalization
pipeline of the swagger-js-codegen repository (the single source file
`src/lib/codegen.js`): the version dispatcher, the method-name allocator,
the security merger, the parameter classifier with `$ref` resolution, and
the version-specific view builders, together with theorems settling the
claims about that code.

Modelling conventions:
* JavaScript strings are Lean `String`s, but every string operation used by
  the code (`split`, `toUpperCase`, `substring`, lodash `camelCase`, …) is
  re-implemented structurally over `List Char` so that concrete runs reduce
  inside the kernel.  All inputs of interest are ASCII.
* JavaScript objects that the code mutates in place (parameter nodes) live
  in an explicit heap (`List SwaggerParam` indexed by `Nat` addresses);
  operation parameter lists and the shared-parameter tables hold addresses,
  so object aliasing is represented faithfully.
* `undefined`-able fields are `Option`s; JavaScript truthiness of strings
  (empty string is falsy) is modelled explicitly where the code relies on it.
* Code paths that crash in JavaScript (property access on `undefined`)
  are modelled as `Except JsError` with a `typeError` payload; the whole
  builder aborts, mirroring the thrown exception.
-/

namespace Codegen

/-! ## ASCII character and string helpers (models of the JS string methods) -/

/-- Model of `String.prototype.toUpperCase` on one ASCII character. -/
def asciiUpperChar (c : Char) : Char :=
  if 'a' ≤ c && c ≤ 'z' then Char.ofNat (c.toNat - 32) else c

/-- Model of `String.prototype.toLowerCase` on one ASCII character. -/
def asciiLowerChar (c : Char) : Char :=
  if 'A' ≤ c && c ≤ 'Z' then Char.ofNat (c.toNat + 32) else c

/-- Model of `s.toUpperCase()` (ASCII). -/
def jsToUpper (s : String) : String := String.mk (s.data.map asciiUpperChar)

/-- Model of `s.toLowerCase()` (ASCII). -/
def jsToLower (s : String) : String := String.mk (s.data.map asciiLowerChar)

def isAsciiLower (c : Char) : Bool := 'a' ≤ c && c ≤ 'z'

def isAsciiUpper (c : Char) : Bool := 'A' ≤ c && c ≤ 'Z'

def isAsciiDigit (c : Char) : Bool := '0' ≤ c && c ≤ '9'

/-- Model of `str.split('/')` (single-character separator, as used by the
code for `$ref` pointers and URL paths).  `"".split('/') === [""]`. -/
def splitSlash : List Char → List (List Char)
  | [] => [[]]
  | c :: cs =>
    if c = '/' then [] :: splitSlash cs
    else
      match splitSlash cs with
      | r :: rs => (c :: r) :: rs
      | [] => [[c]]

def jsSplitSlash (s : String) : List String := (splitSlash s.data).map String.mk

/-- Model of `Array.prototype.join(sep)` / `String.prototype.concat` chains:
joins the pieces with the separator in between. -/
def joinSep (sep : String) : List String → String
  | [] => ""
  | [s] => s
  | s :: rest => s ++ sep ++ joinSep sep rest

def listIsPrefixOf : List Char → List Char → Bool
  | [], _ => true
  | _ :: _, [] => false
  | a :: as, b :: bs => a = b && listIsPrefixOf as bs

def listContainsSub (needle : List Char) : List Char → Bool
  | [] => listIsPrefixOf needle []
  | c :: tl => listIsPrefixOf needle (c :: tl) || listContainsSub needle tl

/-- Model of `hay.indexOf(needle) !== -1` on JS strings: substring
containment (`true` for the empty needle, as `indexOf('') === 0`). -/
def jsIncludesSub (needle hay : String) : Bool :=
  listContainsSub needle.data hay.data

/-- Model of `s.substring(a, b)`: both indices are clamped to
`[0, s.length]` and swapped when `a > b`. -/
def jsSubstring (s : String) (a b : Nat) : String :=
  let n := s.data.length
  let a' := min a n
  let b' := min b n
  let lo := min a' b'
  let hi := max a' b'
  String.mk ((s.data.drop lo).take (hi - lo))

/-- Model of JS `a || b` for two possibly-`undefined` strings: the empty
string is falsy. -/
def jsOrStr (a b : Option String) : Option String :=
  match a with
  | some s => if s = "" then b else some s
  | none => b

/-- Model of JS `a || b` for possibly-`undefined` object/array values
(any present value is truthy). -/
def jsOrOpt {α : Type} (a b : Option α) : Option α :=
  match a with
  | some x => some x
  | none => b

/-! ## lodash `_.camelCase` (ASCII model)

`_.camelCase` splits its input into words (runs of lower-case letters,
digits, or upper-case runs, an upper-case run followed by lower-case
letters contributing its last capital to the following word), lower-cases
every word, then concatenates with every word after the first
capitalized.  Only ASCII inputs occur in this development.  The scanner
uses explicit fuel (one unit per consumed character) to stay structurally
recursive; the fuel `length + 1` never runs out. -/

def lodashWordsAux : Nat → List Char → List (List Char)
  | 0, _ => []
  | _, [] => []
  | fuel + 1, c :: cs =>
    if isAsciiLower c then
      (c :: cs.takeWhile isAsciiLower) :: lodashWordsAux fuel (cs.dropWhile isAsciiLower)
    else if isAsciiDigit c then
      (c :: cs.takeWhile isAsciiDigit) :: lodashWordsAux fuel (cs.dropWhile isAsciiDigit)
    else if isAsciiUpper c then
      let uppers := c :: cs.takeWhile isAsciiUpper
      let rest := cs.dropWhile isAsciiUpper
      match rest with
      | r :: _ =>
        if isAsciiLower r then
          let low := rest.takeWhile isAsciiLower
          let tail := rest.dropWhile isAsciiLower
          match uppers.dropLast with
          | [] => (uppers.getLastD c :: low) :: lodashWordsAux fuel tail
          | lead => lead :: (uppers.getLastD c :: low) :: lodashWordsAux fuel tail
        else uppers :: lodashWordsAux fuel rest
      | [] => uppers :: lodashWordsAux fuel rest
    else lodashWordsAux fuel cs

def lodashWords (s : String) : List String :=
  (lodashWordsAux (s.data.length + 1) s.data).map String.mk

/-- `_.upperFirst` on an already lower-cased word. -/
def capitalizeAscii (w : String) : String :=
  match w.data with
  | [] => ""
  | c :: cs => String.mk (asciiUpperChar c :: cs)

/-- ASCII model of lodash `_.camelCase`. -/
def lodashCamelCase (s : String) : String :=
  match (lodashWords s).map jsToLower with
  | [] => ""
  | w :: rest => w ++ joinSep "" (rest.map capitalizeAscii)

/-! ## `normalizeName` and `getPathToMethodName` (codegen.js lines 15–36) -/

/-- `normalizeName`: replaces `.`, `-`, `{`, `}` and (ASCII) whitespace
with `_` (the JS regex `/\.|\-|\{|\}|\s/g`). -/
def normalizeName (id : String) : String :=
  String.mk (id.data.map (fun c =>
    if c = '.' || c = '-' || c = '\x7b' || c = '\x7d' ||
       c = ' ' || c = '\t' || c = '\n' || c = '\r' then '_' else c))

/-- One segment rewrite inside `getPathToMethodName`: a segment whose first
character is `{` and whose last character is `}` becomes
`'by' + segment[1].toUpperCase() + segment.substring(2, segment.length - 1)`. -/
def rewriteSegment (seg : String) : String :=
  match seg.data.head?, seg.data.getLast? with
  | some '\x7b', some '\x7d' =>
    match seg.data.get? 1 with
    | some c =>
      "by" ++ String.mk [asciiUpperChar c] ++ jsSubstring seg 2 (seg.data.length - 1)
    | none => seg  -- unreachable: the two matched characters give length ≥ 2
  | _, _ => seg

/-- `getPathToMethodName(opts, m, path)` (the `opts` argument is unused in
the source).  For the path `/` or the empty path the verb itself is
returned; otherwise one trailing slash is stripped, the path is split on
`/` dropping the leading empty segment, `{param}` segments are rewritten,
the segments are joined with `-` and camelCased, and the lower-cased verb
is prefixed with the capitalized remainder.  (When the camelCased
remainder is empty the JS code throws on `result[0].toUpperCase()`; that
degenerate case is modelled by returning the lower-cased verb and is
never reached in this development.) -/
def getPathToMethodName (m path : String) : String :=
  if path = "/" || path = "" then m
  else
    let cleanPath :=
      if path.data.getLast? = some '/' then jsSubstring path 0 (path.data.length - 1)
      else path
    let segments := (jsSplitSlash cleanPath).drop 1
    let segments := segments.map rewriteSegment
    let result := lodashCamelCase (joinSep "-" segments)
    match result.data with
    | [] => jsToLower m
    | c :: cs => jsToLower m ++ String.mk (asciiUpperChar c :: cs)

/-! ## The verb whitelists (codegen.js lines 41–56 and line 320)

Both builders declare the same fourteen-element list; note the entry
`'UNLIK'` in the source. -/

/-- `authorizedMethods` of `getViewForSwagger3` (lines 41–56). -/
def authorizedMethodsV3 : List String :=
  ["GET", "POST", "PUT", "DELETE", "PATCH", "COPY", "HEAD", "OPTIONS",
   "LINK", "UNLIK", "PURGE", "LOCK", "UNLOCK", "PROPFIND"]

/-- `authorizedMethods` of `getViewForSwagger2` (line 320). -/
def authorizedMethods : List String :=
  ["GET", "POST", "PUT", "DELETE", "PATCH", "COPY", "HEAD", "OPTIONS",
   "LINK", "UNLIK", "PURGE", "LOCK", "UNLOCK", "PROPFIND"]

/-- The verb-retention test of the builders (lines 96–99 / 346–349): an
entry is processed unless its upper-cased key is empty or outside the
whitelist. -/
def keepVerb (m : String) : Bool :=
  let M := jsToUpper m
  !(M = "") && authorizedMethods.contains M

/-! ## Decimal representation: `Nat.repr` is injective

The collision loop of the method-name allocator appends `'_' + i` with `i`
rendered in decimal.  Termination of the JS `while (true)` loop (and
freshness of its result) rests on the candidates being pairwise distinct,
i.e. on injectivity of the decimal rendering, proved here against the core
definitions `Nat.toDigitsCore` / `Nat.digitChar`. -/

/-- Value of a list of decimal digit characters (most significant first). -/
def digitsVal : List Char → Nat
  | [] => 0
  | c :: cs => (c.toNat - 48) * 10 ^ cs.length + digitsVal cs

/-! ## The method-name allocator (codegen.js lines 121–134 / 366–378)

`methodName + '_' + i` candidates are tried for `i = 1, 2, …` until one is
not in the `methods` list.  The JS loop is unbounded; the model gives it
`methods.length + 1` units of fuel, which is always enough (proved below:
the candidates are pairwise distinct, so at most `methods.length` of them
can be occupied). -/

/-- `methodName + '_' + i`. -/
def nameCandidate (n : String) (i : Nat) : String := n ++ "_" ++ Nat.repr i

/-- The `while (true)` collision loop. -/
def searchSuffix (names : List String) (n : String) : Nat → Nat → String
  | i, 0 => nameCandidate n i
  | i, fuel + 1 =>
    if nameCandidate n i ∈ names then searchSuffix names n (i + 1) fuel
    else nameCandidate n i

/-- The whole uniqueness step: `methodName` is kept when unused, otherwise
the first free suffixed candidate is taken. -/
def allocateName (names : List String) (n : String) : String :=
  if n ∈ names then searchSuffix names n 1 (names.length + 1) else n

/-- The occupied candidates among indices `i, i+1, …, i+cnt-1`. -/
def occList (names : List String) (n : String) : Nat → Nat → List String
  | _, 0 => []
  | i, cnt + 1 =>
    (if nameCandidate n i ∈ names then [nameCandidate n i] else [])
      ++ occList names n (i + 1) cnt

/-! ## Security merger (codegen.js lines 100–116 and 350–362)

`_.merge([], swagger.security, op.security)` deep-merges the two
requirement arrays index by index; an absent (`undefined`) source is
skipped.  Only the key sets of the requirement objects are consumed, so a
requirement object is modelled as its key list and the element-wise object
merge as a key union (target keys first, new source keys appended). -/

def keyUnion (x y : List String) : List String :=
  x ++ y.filter (fun k => !(x.contains k))

/-- Index-wise lodash `_.merge` of two arrays of requirement objects. -/
def mergeReqs : List (List String) → List (List String) → List (List String)
  | xs, [] => xs
  | [], ys => ys
  | x :: xs, y :: ys => keyUnion x y :: mergeReqs xs ys

/-- `_.merge([], swagger.security, op.security)`, key lists only. -/
def mergedSecurity (docSec opSec : Option (List (List String))) : List (List String) :=
  mergeReqs (docSec.getD []) (opSec.getD [])

/-- V3 lines 105–109: the flattened scheme-name list
`_.flatten(merged.map(Object.keys))`. -/
def mergedKeysV3 (docSec opSec : Option (List (List String))) : List String :=
  (mergedSecurity docSec opSec).flatten

/-- V3 lines 100–116: the `secureTypes` list — the `type` of every entry of
`components.securitySchemes` whose name occurs in the merged key list. -/
def secureTypesV3 (schemes : Option (List (String × String)))
    (docSec opSec : Option (List (List String))) : List String :=
  if schemes.isSome || opSec.isSome then
    match schemes with
    | some defs =>
      (defs.filter (fun kv => (mergedKeysV3 docSec opSec).contains kv.1)).map (fun kv => kv.2)
    | none => []
  else []

/-- V2 line 352–357: the merged requirement key lists are joined with `,`
(`Array.prototype.join` stringifies each inner array by joining it with
`,` as well) and each `securityDefinitions` name is tested by
`joined.indexOf(sk) !== -1`, i.e. substring containment. -/
def joinedSecurityV2 (docSec opSec : Option (List (List String))) : String :=
  joinSep "," ((mergedSecurity docSec opSec).map (fun ks => joinSep "," ks))

/-- V2 lines 350–362: the `secureTypes` list. -/
def secureTypesV2 (defs : Option (List (String × String)))
    (docSec opSec : Option (List (List String))) : List String :=
  if defs.isSome || opSec.isSome then
    match defs with
    | some ds =>
      (ds.filter (fun kv => jsIncludesSub kv.1 (joinedSecurityV2 docSec opSec))).map
        (fun kv => kv.2)
    | none => []
  else []

/-! ## Version dispatcher (codegen.js lines 580–593) -/

inductive BuilderKind where
  | v1 | v2 | v3
deriving DecidableEq, Repr

/-- `switch (opts.swagger.swagger || opts.swagger.openapi)`: the first
truthy marker is matched against the exact strings `'2.0'` and `'3.0.3'`;
everything else falls to the legacy builder. -/
def selectBuilder (swaggerField openapiField : Option String) : BuilderKind :=
  match jsOrStr swaggerField openapiField with
  | some s => if s = "2.0" then .v2 else if s = "3.0.3" then .v3 else .v1
  | none => .v1

/-! ## The error model

The spec's §7 taxonomy names a `BrokenReference` error.  The code as
written never constructs one: a dangling `$ref` makes the table lookup
yield `undefined` and the subsequent property assignment throws a plain
`TypeError`.  Both shapes exist in the model so that claims about the
error kind are statable. -/

inductive JsError where
  /-- a thrown `TypeError` (property access or assignment on `undefined`) -/
  | typeError (msg : String)
  /-- the `BrokenReference` error of the spec's error taxonomy (§7);
  never produced by the code as written -/
  | brokenReference (name : String)
deriving DecidableEq, Repr

def JsError.isBrokenReference : JsError → Bool
  | .brokenReference _ => true
  | .typeError _ => false

/-! ## Parameter nodes and the mutable heap

A raw parameter node of the document.  The classifier mutates these nodes
in place; nodes live in a heap (`List SwaggerParam`, address = index) and
parameter lists hold addresses, so aliasing of path-level shared
parameters is represented faithfully.  Fields written by the classifier
start as `none`/`false` (JS `undefined`). -/

structure SchemaNode where
  default : Option String := none
deriving DecidableEq, Repr

structure SwaggerParam where
  /-- `$ref` (present iff the node is a reference) -/
  ref : Option String := none
  name : String := ""
  /-- the `in` discriminator of Swagger 2.0 / OpenAPI 3.x -/
  in_ : String := ""
  /-- the `paramType` discriminator of the legacy format -/
  paramType : String := ""
  required : Bool := false
  enum : List String := []
  schema : Option SchemaNode := none
  style : Option String := none
  xExcludeFromBindings : Bool := false
  xProxyHeader : Bool := false
  xNamePattern : Option String := none
  -- fields written by the classifier:
  camelCaseName : Option String := none
  isSingleton : Bool := false
  singleton : Option String := none
  isBodyParameter : Bool := false
  isPathParameter : Bool := false
  isQueryParameter : Bool := false
  isPatternType : Bool := false
  pattern : Option String := none
  isHeaderParameter : Bool := false
  isFormParameter : Bool := false
  transformOperation : Option String := none
  tsType : Option String := none
  default : Option String := none
  defaultSerialized : Option String := none
  cardinality : Option String := none
deriving DecidableEq, Repr

/-- Modelled from the spec: the Type Mapper (`ts.convertType` of the
`typescript` module, which is not under `src/`) is per §1/§2 an external
collaborator "consumed as a black box that maps a schema node to a
target-language type string"; it is instantiated by a fixed representative
function.  No claim depends on the concrete strings it returns. -/
def tsConvertType (p : SwaggerParam) : String := "type:" ++ p.name

/-- Modelled from the spec: the black-box Type Mapper applied to a
definition/schema entry (see `tsConvertType`). -/
def tsConvertTypeDef (name : String) : String := "deftype:" ++ name

/-- JS truthiness of a possibly-`undefined` string field. -/
def jsTruthyStr : Option String → Bool
  | some s => !(s = "")
  | none => false

/-- The V2 parameter classifier (codegen.js lines 447–468), as a pure
function on one node; the builder writes the result back into the heap at
the node's address. -/
def classifyParamV2 (p : SwaggerParam) : SwaggerParam :=
  let p := { p with camelCaseName := some (lodashCamelCase p.name) }
  let p := if p.enum.length = 1 then
      { p with isSingleton := true, singleton := p.enum.head? } else p
  let p :=
    if p.in_ = "body" then { p with isBodyParameter := true }
    else if p.in_ = "path" then { p with isPathParameter := true }
    else if p.in_ = "query" then
      let p := if jsTruthyStr p.xNamePattern then
          { p with isPatternType := true, pattern := p.xNamePattern } else p
      { p with isQueryParameter := true }
    else if p.in_ = "header" then { p with isHeaderParameter := true }
    else if p.in_ = "formData" then { p with isFormParameter := true }
    else p
  let p := { p with tsType := some (tsConvertType p) }
  { p with cardinality := some (if p.required then "" else "?") }

/-- `JSON.stringify` on the (string-valued) `default`;
`JSON.stringify(undefined)` is `undefined`.  The strings of this
development need no escaping. -/
def jsonStringifyStr : Option String → Option String
  | some s => some ("\"" ++ s ++ "\"")
  | none => none

/-- The V3 parameter classifier (codegen.js lines 233–263).  Differences
from V2: no `body` branch (the request body is synthesized separately),
`pattern` is written unconditionally in the `query` branch, `style:
pipeDelimited` adds a transform, and `default`/`defaultSerialized` are
written onto the node. -/
def classifyParamV3 (p : SwaggerParam) : SwaggerParam :=
  let p := { p with camelCaseName := some (lodashCamelCase p.name) }
  let p := if p.enum.length = 1 then
      { p with isSingleton := true, singleton := p.enum.head? } else p
  let p :=
    if p.in_ = "path" then { p with isPathParameter := true }
    else if p.in_ = "query" then
      let p := if jsTruthyStr p.xNamePattern then { p with isPatternType := true } else p
      { p with pattern := p.xNamePattern, isQueryParameter := true }
    else if p.in_ = "header" then { p with isHeaderParameter := true }
    else if p.in_ = "formData" then { p with isFormParameter := true }
    else p
  let p := if p.style = some "pipeDelimited" then
      { p with transformOperation := some "joinUsingPipes" } else p
  let p := { p with tsType := some (tsConvertType p) }
  let p := { p with default :=
    match p.schema with
    | some sch =>
      match sch.default with
      | some d => if d = "" then none else some d
      | none => none
    | none => none }
  let p := { p with defaultSerialized := jsonStringifyStr p.default }
  { p with cardinality := some (if p.required then "" else "?") }

/-- Association-table lookup (`table[name]`). -/
def lookupStr {α : Type} (tbl : List (String × α)) (k : String) : Option α :=
  (tbl.find? (fun kv => kv.1 == k)).map (fun kv => kv.2)

/-- V2 `$ref` target naming (line 444–445):
`segments.length === 1 ? segments[0] : segments[2]`. -/
def refTargetNameV2 (r : String) : Option String :=
  let segments := jsSplitSlash r
  if segments.length = 1 then segments.get? 0 else segments.get? 2

/-- V3 `$ref` target naming (lines 227–231):
`segments.length === 1 ? segments[0] : segments[3]`. -/
def refTargetNameV3 (r : String) : Option String :=
  let segments := jsSplitSlash r
  if segments.length = 1 then segments.get? 0 else segments.get? 3

/-- State of the per-operation parameter loop: the heap and the addresses
pushed so far onto `method.parameters`. -/
structure PState where
  store : List SwaggerParam
  addrs : List Nat := []
deriving DecidableEq, Repr

/-- One iteration of the V2 parameter loop (lines 432–470): skip excluded
and proxy-injected entries (checked on the entry node, before `$ref`
resolution), resolve a `$ref` against the flat `swagger.parameters` table
(a missing target makes the following property write throw a `TypeError`),
classify the resolved node in place and push its address. -/
def stepParamV2 (tbl : List (String × Nat)) (isNode : Bool) (s : PState) (a : Nat) :
    Except JsError PState :=
  match s.store.get? a with
  | none => .error (.typeError "cannot read parameter node")
  | some node =>
    if node.xExcludeFromBindings then .ok s
    else if node.xProxyHeader && !isNode then .ok s
    else
      match node.ref with
      | none => .ok { store := s.store.set a (classifyParamV2 node), addrs := s.addrs ++ [a] }
      | some r =>
        match refTargetNameV2 r with
        | none => .error (.typeError "cannot index the parameters table with undefined")
        | some nm =>
          match lookupStr tbl nm with
          | none => .error (.typeError "cannot set camelCaseName of undefined")
          | some a2 =>
            match s.store.get? a2 with
            | none => .error (.typeError "cannot read parameter node")
            | some node2 =>
              .ok { store := s.store.set a2 (classifyParamV2 node2), addrs := s.addrs ++ [a2] }

/-- The V2 parameter loop. -/
def runParamsV2 (tbl : List (String × Nat)) (isNode : Bool) :
    PState → List Nat → Except JsError PState
  | s, [] => .ok s
  | s, a :: rest =>
    match stepParamV2 tbl isNode s a with
    | .error e => .error e
    | .ok s' => runParamsV2 tbl isNode s' rest

/-- State of the V3 parameter loop: additionally accumulates
`hasExtraHeader` and `hasAnyRequired`. -/
structure PState3 where
  store : List SwaggerParam
  addrs : List Nat := []
  hasExtraHeader : Bool := false
  hasAnyRequired : Bool := false
deriving DecidableEq, Repr

/-- One iteration of the V3 parameter loop (lines 215–269); the `$ref`
table is the nested `components.parameters` (an absent `components` or
table also throws). -/
def stepParamV3 (compParams : Option (List (String × Nat))) (isNode : Bool)
    (s : PState3) (a : Nat) : Except JsError PState3 :=
  match s.store.get? a with
  | none => .error (.typeError "cannot read parameter node")
  | some node =>
    if node.xExcludeFromBindings then .ok s
    else if node.xProxyHeader && !isNode then .ok s
    else
      match (match node.ref with
        | none => Except.ok (a, node)
        | some r =>
          match compParams with
          | none => Except.error (JsError.typeError "cannot read parameters of undefined")
          | some tbl =>
            match refTargetNameV3 r with
            | none => Except.error (JsError.typeError "cannot index the parameters table with undefined")
            | some nm =>
              match lookupStr tbl nm with
              | none => Except.error (JsError.typeError "cannot set camelCaseName of undefined")
              | some a2 =>
                match s.store.get? a2 with
                | none => Except.error (JsError.typeError "cannot read parameter node")
                | some node2 => Except.ok (a2, node2) : Except JsError (Nat × SwaggerParam)) with
      | .error e => .error e
      | .ok (a', node') =>
        .ok { store := s.store.set a' (classifyParamV3 node'),
              addrs := s.addrs ++ [a'],
              hasExtraHeader := if node'.in_ = "header" then true else s.hasExtraHeader,
              hasAnyRequired :=
                if node'.required ∧ ¬(node'.in_ = "path") then true else s.hasAnyRequired }

/-- The V3 parameter loop. -/
def runParamsV3 (compParams : Option (List (String × Nat))) (isNode : Bool) :
    PState3 → List Nat → Except JsError PState3
  | s, [] => .ok s
  | s, a :: rest =>
    match stepParamV3 compParams isNode s a with
    | .error e => .error e
    | .ok s' => runParamsV3 compParams isNode s' rest

/-! ## Documents, operations and the Swagger-2.0 builder
(codegen.js lines 317–484) -/

structure SwaggerOp where
  operationId : Option String := none
  description : Option String := none
  summary : Option String := none
  externalDocs : Option String := none
  security : Option (List (List String)) := none
  tags : List String := []
  produces : Option (List String) := none
  consumes : Option (List String) := none
  /-- the operation's own parameter list (heap addresses);
  `none` models a missing / non-array `parameters` field -/
  parameters : Option (List Nat) := none
  responses : List (String × String) := []
deriving DecidableEq, Repr

/-- A value of the path-item object: a verb entry (an operation object) or
an array value (the path-level shared `parameters` list). -/
inductive PathEntry where
  | op : SwaggerOp → PathEntry
  | arr : List Nat → PathEntry
deriving DecidableEq, Repr

structure SwaggerDoc where
  swagger : Option String := none
  openapi : Option String := none
  infoDescription : Option String := none
  host : String := ""
  basePath : String := ""
  schemes : List String := []
  produces : Option (List String) := none
  consumes : Option (List String) := none
  security : Option (List (List String)) := none
  securityDefinitions : Option (List (String × String)) := none
  paths : List (String × List (String × PathEntry)) := []
  /-- the flat shared-parameter table `swagger.parameters` (name → address) -/
  parameters : List (String × Nat) := []
  definitions : List (String × Option String) := []
  /-- the heap of parameter nodes -/
  pstore : List SwaggerParam := []
deriving DecidableEq, Repr

structure Opts where
  className : Option String := none
  moduleName : Option String := none
  imports : Option (List String) := none
  isES6 : Bool := false
  multiple : Bool := false
deriving DecidableEq, Repr

structure Method where
  path : String
  className : Option String
  methodName : String
  method : String
  isGET : Bool
  isPOST : Bool
  summary : Option String
  externalDocs : Option String
  isSecure : Bool
  isSecureToken : Bool
  isSecureApiKey : Bool
  isSecureBasic : Bool
  /-- addresses of the (classified) parameter nodes in the heap -/
  parameters : List Nat
  headers : List (String × String)
  destination : Option String := none
  responses : List (String × String) := []
deriving DecidableEq, Repr

structure DefinitionView where
  name : String
  description : Option String
  tsType : String
deriving DecidableEq, Repr

structure V2Data where
  isNode : Bool
  isES6 : Bool
  description : Option String
  isSecure : Bool
  moduleName : Option String
  className : Option String
  imports : Option (List String)
  domain : String
  methods : List Method
  definitions : List DefinitionView
  isSecureToken : Bool := false
  isSecureApiKey : Bool := false
  isSecureBasic : Bool := false
deriving DecidableEq, Repr

/-- Builder state threaded through the path/verb walk: the heap, the
`methods` name list of the allocator, the built `data.methods`, and the
three document-wide security flags (JS `undefined` ≈ `false`). -/
structure BState where
  store : List SwaggerParam
  names : List String := []
  methods : List Method := []
  isSecureToken : Bool := false
  isSecureApiKey : Bool := false
  isSecureBasic : Bool := false
deriving DecidableEq, Repr

/-- The document-wide security-flag promotion (lines 405–413): under
`method.isSecure && method.isSecure<Kind>` the document flag is assigned
`method.isSecure<Kind>` (which the guard forces to `true`); nothing ever
assigns `false`. -/
def updateDocFlags (st : BState) (m : Method) : BState :=
  let st := if m.isSecure && m.isSecureToken then { st with isSecureToken := true } else st
  let st := if m.isSecure && m.isSecureApiKey then { st with isSecureApiKey := true } else st
  if m.isSecure && m.isSecureBasic then { st with isSecureBasic := true } else st

/-- `basePath.replace(/\/+$/g, '')`. -/
def stripTrailingSlashes (s : String) : String :=
  String.mk ((s.data.reverse.dropWhile (fun c => c = '/')).reverse)

/-- The `domain` computation (line 329). -/
def domainOf (doc : SwaggerDoc) : String :=
  if !(doc.schemes.length = 0) && !(doc.host = "") && !(doc.basePath = "") then
    doc.schemes.headD "" ++ "://" ++ doc.host ++ stripTrailingSlashes doc.basePath
  else ""

/-- Processing of one retained verb entry of `getViewForSwagger2`
(lines 345–472). -/
def processOpV2 (opts : Opts) (isNode : Bool) (doc : SwaggerDoc) (path m : String)
    (op : SwaggerOp) (globalParams : List Nat) (st : BState) : Except JsError BState :=
  let M := jsToUpper m
  let secureTypes := secureTypesV2 doc.securityDefinitions doc.security op.security
  let methodName0 :=
    match op.operationId with
    | some oid => if oid = "" then getPathToMethodName m path else normalizeName oid
    | none => getPathToMethodName m path
  let methodName := allocateName st.names methodName0
  let isSecure := doc.security.isSome || op.security.isSome
  let isSecureToken := secureTypes.contains "oauth2"
  let isSecureApiKey := secureTypes.contains "apiKey"
  let isSecureBasic := secureTypes.contains "basic"
  match (if opts.multiple then
      match op.tags.head? with
      | some t => Except.ok (some (jsToLower t))
      | none => Except.error (JsError.typeError "cannot read tags[0] of undefined")
    else Except.ok none : Except JsError (Option String)) with
  | .error e => .error e
  | .ok destination =>
    let headersAccept :=
      match jsOrOpt op.produces doc.produces with
      | some ps => [("Accept", "'" ++ joinSep ", " ps ++ "'")]
      | none => []
    let headersCT :=
      match jsOrOpt op.consumes doc.consumes with
      | some cs => [("Content-Type", "'" ++ joinSep "," cs ++ "'")]
      | none => []
    let params := op.parameters.getD [] ++ globalParams
    match runParamsV2 doc.parameters isNode { store := st.store } params with
    | .error e => .error e
    | .ok ps =>
      let method : Method :=
        { path := path, className := opts.className, methodName := methodName, method := M,
          isGET := M = "GET", isPOST := M = "POST",
          summary := jsOrStr op.description op.summary, externalDocs := op.externalDocs,
          isSecure := isSecure, isSecureToken := isSecureToken,
          isSecureApiKey := isSecureApiKey, isSecureBasic := isSecureBasic,
          parameters := ps.addrs, headers := headersAccept ++ headersCT,
          destination := destination, responses := op.responses }
      let st' := { st with
        store := ps.store, names := st.names ++ [methodName],
        methods := st.methods ++ [method] }
      .ok (updateDocFlags st' method)

/-- The collection of the path-level shared parameters (lines 340–344):
the last sibling whose lower-cased key is `parameters`.  (A non-array
value under that key is not modelled; the document grammar makes it an
array.) -/
def globalParamsOf (api : List (String × PathEntry)) : List Nat :=
  api.foldl (fun acc e =>
    if jsToLower e.1 = "parameters" then
      match e.2 with
      | .arr l => l
      | .op _ => acc
    else acc) []

/-- The verb loop of one path (lines 345–472).  An `.arr` entry is the
`parameters` sibling, whose upper-cased key fails the whitelist test. -/
def runOpsV2 (opts : Opts) (isNode : Bool) (doc : SwaggerDoc) (path : String)
    (globalParams : List Nat) : BState → List (String × PathEntry) → Except JsError BState
  | st, [] => .ok st
  | st, (m, e) :: rest =>
    match e with
    | .arr _ => runOpsV2 opts isNode doc path globalParams st rest
    | .op op =>
      if keepVerb m then
        match processOpV2 opts isNode doc path m op globalParams st with
        | .error err => .error err
        | .ok st' => runOpsV2 opts isNode doc path globalParams st' rest
      else runOpsV2 opts isNode doc path globalParams st rest

/-- The path loop (line 334). -/
def runPathsV2 (opts : Opts) (isNode : Bool) (doc : SwaggerDoc) :
    BState → List (String × List (String × PathEntry)) → Except JsError BState
  | st, [] => .ok st
  | st, (path, api) :: rest =>
    match runOpsV2 opts isNode doc path (globalParamsOf api) st api with
    | .error e => .error e
    | .ok st' => runPathsV2 opts isNode doc st' rest

/-- `getViewForSwagger2` (lines 317–484).  Returns the view model together
with the final heap (the JS function additionally leaves the mutated
parameter nodes behind in the input document). -/
def getViewForSwagger2 (opts : Opts) (type : String) (doc : SwaggerDoc) :
    Except JsError (V2Data × List SwaggerParam) :=
  let isNode := type = "node" || type = "react"
  match runPathsV2 opts isNode doc { store := doc.pstore } doc.paths with
  | .error e => .error e
  | .ok st =>
    .ok ({ isNode := isNode, isES6 := opts.isES6 || type = "react",
           description := doc.infoDescription,
           isSecure := doc.securityDefinitions.isSome,
           moduleName := opts.moduleName, className := opts.className,
           imports := opts.imports, domain := domainOf doc,
           methods := st.methods,
           definitions := doc.definitions.map (fun nd =>
             { name := nd.1, description := nd.2, tsType := tsConvertTypeDef nd.1 }),
           isSecureToken := st.isSecureToken, isSecureApiKey := st.isSecureApiKey,
           isSecureBasic := st.isSecureBasic }, st.store)

/-! ## The legacy Swagger-1.x builder (codegen.js lines 486–549)

The legacy builder keeps parameters as plain values (`op.parameters` is
assigned to the method wholesale — there is no exclusion filter and no
`$ref` resolution), classifies every parameter, and skips only the exact
verb `OPTIONS`. -/

structure V1Op where
  method : String := ""
  nickname : String := ""
  summary : Option String := none
  parameters : List SwaggerParam := []
  produces : Option (List String) := none
deriving DecidableEq, Repr

structure V1Api where
  path : String := ""
  operations : List V1Op := []
deriving DecidableEq, Repr

structure SwaggerDoc1 where
  description : Option String := none
  basePath : String := ""
  apis : List V1Api := []
deriving DecidableEq, Repr

/-- The legacy classifier (lines 523–544): `paramType` discriminator, no
type mapping, no cardinality. -/
def classifyParamV1 (p : SwaggerParam) : SwaggerParam :=
  let p := { p with camelCaseName := some (lodashCamelCase p.name) }
  let p := if p.enum.length = 1 then
      { p with isSingleton := true, singleton := p.enum.head? } else p
  if p.paramType = "body" then { p with isBodyParameter := true }
  else if p.paramType = "path" then { p with isPathParameter := true }
  else if p.paramType = "query" then
    let p := if jsTruthyStr p.xNamePattern then
        { p with isPatternType := true, pattern := p.xNamePattern } else p
    { p with isQueryParameter := true }
  else if p.paramType = "header" then { p with isHeaderParameter := true }
  else if p.paramType = "form" then { p with isFormParameter := true }
  else p

structure MethodV1 where
  path : String
  className : Option String
  methodName : String
  method : String
  isGET : Bool
  isPOST : Bool
  summary : Option String
  /-- the operation's parameter values; the JS method holds a reference to
  the same array the classifier then mutates, so the classified values are
  what the view exposes -/
  parameters : List SwaggerParam
  headers : List (String × String)
deriving DecidableEq, Repr

structure V1Data where
  isNode : Bool
  isES6 : Bool
  description : Option String
  moduleName : Option String
  className : Option String
  domain : String
  methods : List MethodV1
deriving DecidableEq, Repr

/-- `getViewForSwagger1` (lines 486–549). -/
def getViewForSwagger1 (opts : Opts) (type : String) (doc : SwaggerDoc1) : V1Data :=
  { isNode := type = "node" || type = "react",
    isES6 := opts.isES6 || type = "react",
    description := doc.description,
    moduleName := opts.moduleName, className := opts.className,
    domain := if !(doc.basePath = "") then doc.basePath else "",
    methods := doc.apis.flatMap (fun api =>
      (api.operations.filter (fun op => !(op.method = "OPTIONS"))).map (fun op =>
        { path := api.path, className := opts.className, methodName := op.nickname,
          method := op.method, isGET := op.method = "GET",
          isPOST := jsToUpper op.method = "POST",
          summary := op.summary,
          parameters := op.parameters.map classifyParamV1,
          headers :=
            match op.produces with
            | some ps => [("Accept", joinSep ", " (ps.map (fun v => "'" ++ v ++ "'")))]
            | none => [] })) }

/-! ## Derived observations used by the theorems -/

/-- The `(path, VERB)` pairs of the retained verb entries of one path
item, in document order. -/
def retainedOfApi (path : String) (api : List (String × PathEntry)) : List (String × String) :=
  api.filterMap (fun e =>
    match e.2 with
    | .op _ => if keepVerb e.1 then some (path, jsToUpper e.1) else none
    | .arr _ => none)

/-- The retained `(path, VERB)` pairs of the whole document, in document
order. -/
def retainedOps (doc : SwaggerDoc) : List (String × String) :=
  doc.paths.flatMap (fun pr => retainedOfApi pr.1 pr.2)

/-- The raw (classifier-invariant) filter fields of the node at `b`. -/
def rawFlags (store : List SwaggerParam) (b : Nat) : Option (Bool × Bool × Option String) :=
  (store.get? b).map (fun p => (p.xExcludeFromBindings, p.xProxyHeader, p.ref))

/-- The exclude-from-bindings flag of the entry node at `a` (`false` for a
dangling address, which the loop turns into a `TypeError` anyway). -/
def excludedAt (store : List SwaggerParam) (a : Nat) : Bool :=
  match store.get? a with
  | some p => p.xExcludeFromBindings
  | none => false

/-- An entry that the V2 loop processes directly: present, not excluded,
not proxy-blocked, and not a `$ref`. -/
def goodEntryV2 (isNode : Bool) (store : List SwaggerParam) (a : Nat) : Bool :=
  match store.get? a with
  | some p => !p.xExcludeFromBindings && !(p.xProxyHeader && !isNode) && p.ref.isNone
  | none => false

/-- The address a V2 parameter-list entry contributes to the method (its
own address, or the `$ref` target's), `none` when the entry is skipped.
Evaluated on the store at loop entry; the loop can only succeed when the
lookups of every non-skipped entry succeed. -/
def resolvedAddrV2 (tbl : List (String × Nat)) (isNode : Bool)
    (store : List SwaggerParam) (a : Nat) : Option Nat :=
  match store.get? a with
  | none => none
  | some node =>
    if node.xExcludeFromBindings then none
    else if node.xProxyHeader && !isNode then none
    else
      match node.ref with
      | none => some a
      | some r =>
        match refTargetNameV2 r with
        | none => none
        | some nm =>
          match lookupStr tbl nm with
          | none => none
          | some a2 => some a2

/-- The allocated method names of a V2 build, in document order (empty
when the build aborts). -/
def builtNames (opts : Opts) (type : String) (doc : SwaggerDoc) : List String :=
  match getViewForSwagger2 opts type doc with
  | .ok (v, _) => v.methods.map (fun mt => mt.methodName)
  | .error _ => []

def emptyV2Data : V2Data :=
  { isNode := false, isES6 := false, description := none, isSecure := false,
    moduleName := none, className := none, imports := none, domain := "",
    methods := [], definitions := [] }

/-- The result of a V2 build, with a default for the failure case (used to
state closed facts about concrete successful builds). -/
def viewOrDefault (opts : Opts) (type : String) (doc : SwaggerDoc) :
    V2Data × List SwaggerParam :=
  match getViewForSwagger2 opts type doc with
  | .ok p => p
  | .error _ => (emptyV2Data, [])

def stateOrDefault (x : Except JsError BState) (dflt : BState) : BState :=
  match x with
  | .ok s => s
  | .error _ => dflt

def pstateOrDefault (x : Except JsError PState) (dflt : PState) : PState :=
  match x with
  | .ok s => s
  | .error _ => dflt

/-! ## Concrete example documents -/

/-- A document whose two operations both carry the operation id `list`. -/
def docDup : SwaggerDoc :=
  { paths := [("/a", [("get", .op { operationId := some "list" }),
                      ("post", .op { operationId := some "list" })])] }

/-- A parameter node referencing a shared parameter that is absent from
the flat table. -/
def docBrokenRef : SwaggerDoc :=
  { paths := [("/a", [("get", .op { parameters := some [0] })])],
    pstore := [{ ref := some "#/parameters/Missing" }] }

/-- A document whose only operation sits under the verb `unlink`. -/
def docUnlink : SwaggerDoc :=
  { paths := [("/a", [("unlink", .op { operationId := some "u" })])] }

/-- A legacy (V1) document with a parameter marked
`x-exclude-from-bindings`. -/
def docV1Excl : SwaggerDoc1 :=
  { apis := [{ path := "/x",
               operations := [{ method := "GET", nickname := "go",
                                parameters := [{ name := "p", paramType := "query",
                                                 xExcludeFromBindings := true }] }] }] }

/-- A V2 document whose operation parameter is a `$ref` to a shared
parameter that itself carries `x-exclude-from-bindings` (the flag sits on
the target, not on the referencing entry). -/
def docRefExcl : SwaggerDoc :=
  { paths := [("/a", [("get", .op { parameters := some [0] })])],
    parameters := [("Shared", 1)],
    pstore := [{ ref := some "#/parameters/Shared" },
               { name := "s", in_ := "query", xExcludeFromBindings := true }] }

/-- The path-level shared parameter node of `docShared`. -/
def sharedNode : SwaggerParam := { name := "token", in_ := "query" }

/-- One path with a path-level `parameters` sibling and two verb entries;
both operations classify the single shared node at heap address `0`. -/
def docShared : SwaggerDoc :=
  { paths := [("/w", [("parameters", .arr [0]),
                      ("get", .op { operationId := some "g" }),
                      ("post", .op { operationId := some "p" })])],
    pstore := [sharedNode] }

/-- A shared V3 parameter node with a schema default. -/
def sharedNode3 : SwaggerParam :=
  { name := "token", in_ := "query", schema := some { default := some "7" } }

/-- A document with a document-level security requirement naming an
`oauth2` scheme. -/
def docSecEx : SwaggerDoc :=
  { security := some [["k"]],
    securityDefinitions := some [("k", "oauth2")] }

/-! # Theorems

## Decimal rendering and the allocator -/

theorem digitChar_toNat (d : Nat) (h : d < 10) : (Nat.digitChar d).toNat = 48 + d := by
  interval_cases d <;> rfl

theorem toDigitsCore_val :
    ∀ (fuel n : Nat) (ds : List Char), n < fuel →
      digitsVal (Nat.toDigitsCore 10 fuel n ds) = n * 10 ^ ds.length + digitsVal ds := by
  intro fuel
  induction fuel with
  | zero => intro n ds h; omega
  | succ fuel ih =>
    intro n ds h
    simp only [Nat.toDigitsCore]
    have hmod : n % 10 < 10 := Nat.mod_lt _ (by norm_num)
    have hval : digitsVal (Nat.digitChar (n % 10) :: ds)
        = n % 10 * 10 ^ ds.length + digitsVal ds := by
      simp [digitsVal, digitChar_toNat _ hmod]
    have hdm : 10 * (n / 10) + n % 10 = n := Nat.div_add_mod n 10
    by_cases h0 : n / 10 = 0
    · simp only [h0, if_true]
      rw [hval]
      have hn : n % 10 = n := by omega
      rw [hn]
    · simp only [h0, if_false]
      have hlt : n / 10 < fuel := by
        have h1 : 0 < n := by omega
        have := Nat.div_lt_self h1 (by norm_num : 1 < 10)
        omega
      rw [ih (n / 10) (Nat.digitChar (n % 10) :: ds) hlt, hval]
      have hlen : (Nat.digitChar (n % 10) :: ds).length = ds.length + 1 := rfl
      rw [hlen, pow_succ]
      have key : n / 10 * (10 ^ ds.length * 10) + (n % 10 * 10 ^ ds.length + digitsVal ds)
          = (10 * (n / 10) + n % 10) * 10 ^ ds.length + digitsVal ds := by ring
      rw [key, hdm]

theorem toDigits_val (n : Nat) : digitsVal (Nat.toDigits 10 n) = n := by
  unfold Nat.toDigits
  rw [toDigitsCore_val (n + 1) n [] (by omega)]
  simp [digitsVal]

theorem natRepr_inj : Function.Injective Nat.repr := by
  intro a b h
  have hd : Nat.toDigits 10 a = Nat.toDigits 10 b := by
    simpa [Nat.repr, List.asString, String.ext_iff] using h
  calc a = digitsVal (Nat.toDigits 10 a) := (toDigits_val a).symm
    _ = digitsVal (Nat.toDigits 10 b) := by rw [hd]
    _ = b := toDigits_val b

theorem nameCandidate_inj (n : String) {i j : Nat}
    (h : nameCandidate n i = nameCandidate n j) : i = j := by
  have hdata := congrArg String.data h
  simp only [nameCandidate, String.data_append] at hdata
  have hrepr : (Nat.repr i).data = (Nat.repr j).data :=
    List.append_cancel_left hdata
  exact natRepr_inj (String.ext hrepr)

theorem occList_subset (names : List String) (n : String) :
    ∀ (cnt i : Nat), occList names n i cnt ⊆ names := by
  intro cnt
  induction cnt with
  | zero => intro i x hx; simp [occList] at hx
  | succ cnt ih =>
    intro i x hx
    simp only [occList, List.mem_append] at hx
    rcases hx with hx | hx
    · by_cases hmem : nameCandidate n i ∈ names
      · simp [hmem] at hx; simpa [hx]
      · simp [hmem] at hx
    · exact ih (i + 1) hx

theorem occList_mem_idx (names : List String) (n : String) :
    ∀ (cnt i : Nat) (x : String), x ∈ occList names n i cnt →
      ∃ j, i ≤ j ∧ j < i + cnt ∧ x = nameCandidate n j := by
  intro cnt
  induction cnt with
  | zero => intro i x hx; simp [occList] at hx
  | succ cnt ih =>
    intro i x hx
    simp only [occList, List.mem_append] at hx
    rcases hx with hx | hx
    · by_cases hmem : nameCandidate n i ∈ names
      · simp [hmem] at hx
        exact ⟨i, le_refl i, by omega, hx⟩
      · simp [hmem] at hx
    · obtain ⟨j, hj1, hj2, hj3⟩ := ih (i + 1) x hx
      exact ⟨j, by omega, by omega, hj3⟩

theorem occList_nodup (names : List String) (n : String) :
    ∀ (cnt i : Nat), (occList names n i cnt).Nodup := by
  intro cnt
  induction cnt with
  | zero => intro i; simp [occList]
  | succ cnt ih =>
    intro i
    simp only [occList]
    by_cases hmem : nameCandidate n i ∈ names
    · simp only [hmem, if_true, List.singleton_append, List.nodup_cons]
      refine ⟨fun hx => ?_, ih (i + 1)⟩
      obtain ⟨j, hj1, _, hj3⟩ := occList_mem_idx names n cnt (i + 1) _ hx
      have := nameCandidate_inj n hj3
      omega
    · simpa [hmem] using ih (i + 1)

theorem occList_length_le (names : List String) (n : String) (cnt i : Nat) :
    (occList names n i cnt).length ≤ names.length := by
  have hnd := occList_nodup names n cnt i
  have hsub := occList_subset names n cnt i
  have h1 : (occList names n i cnt).toFinset.card = (occList names n i cnt).length :=
    List.toFinset_card_of_nodup hnd
  have h2 : (occList names n i cnt).toFinset ⊆ names.toFinset := fun x hx =>
    List.mem_toFinset.2 (hsub (List.mem_toFinset.1 hx))
  calc (occList names n i cnt).length
      = (occList names n i cnt).toFinset.card := h1.symm
    _ ≤ names.toFinset.card := Finset.card_le_card h2
    _ ≤ names.length := List.toFinset_card_le names

theorem searchSuffix_not_mem (names : List String) (n : String) :
    ∀ (fuel i : Nat), (occList names n i (fuel + 1)).length ≤ fuel →
      searchSuffix names n i fuel ∉ names := by
  intro fuel
  induction fuel with
  | zero =>
    intro i hlen
    simp only [searchSuffix]
    intro hmem
    simp [occList, hmem] at hlen
  | succ fuel ih =>
    intro i hlen
    simp only [searchSuffix]
    by_cases hmem : nameCandidate n i ∈ names
    · simp only [hmem, if_true]
      apply ih (i + 1)
      have : occList names n i (fuel + 1 + 1)
          = [nameCandidate n i] ++ occList names n (i + 1) (fuel + 1) := by
        simp [occList, hmem]
      rw [this] at hlen
      simp at hlen
      omega
    · simp [hmem]

/-- The allocator never returns a name already in the list: the heart of
the uniqueness invariant. -/
theorem allocateName_not_mem (names : List String) (n : String) :
    allocateName names n ∉ names := by
  unfold allocateName
  by_cases hmem : n ∈ names
  · simp only [hmem, if_true]
    apply searchSuffix_not_mem
    calc (occList names n 1 (names.length + 1 + 1)).length
        ≤ names.length := occList_length_le names n _ 1
      _ ≤ names.length + 1 := by omega
  · simp [hmem]



/-! ## Builder-state lemmas -/

theorem updateDocFlags_methods (st : BState) (m : Method) :
    (updateDocFlags st m).methods = st.methods := by
  unfold updateDocFlags
  split <;> split <;> split <;> rfl

theorem updateDocFlags_names (st : BState) (m : Method) :
    (updateDocFlags st m).names = st.names := by
  unfold updateDocFlags
  split <;> split <;> split <;> rfl

theorem updateDocFlags_token_mono (st : BState) (m : Method)
    (h : st.isSecureToken = true) : (updateDocFlags st m).isSecureToken = true := by
  unfold updateDocFlags
  split <;> (try split) <;> (try split) <;> simp_all

theorem updateDocFlags_apiKey_mono (st : BState) (m : Method)
    (h : st.isSecureApiKey = true) : (updateDocFlags st m).isSecureApiKey = true := by
  unfold updateDocFlags
  split <;> (try split) <;> (try split) <;> simp_all

theorem updateDocFlags_basic_mono (st : BState) (m : Method)
    (h : st.isSecureBasic = true) : (updateDocFlags st m).isSecureBasic = true := by
  unfold updateDocFlags
  split <;> (try split) <;> (try split) <;> simp_all

theorem updateDocFlags_token_set (st : BState) (m : Method)
    (h : (m.isSecure && m.isSecureToken) = true) :
    (updateDocFlags st m).isSecureToken = true := by
  unfold updateDocFlags
  split <;> (try split) <;> (try split) <;> simp_all

theorem updateDocFlags_apiKey_set (st : BState) (m : Method)
    (h : (m.isSecure && m.isSecureApiKey) = true) :
    (updateDocFlags st m).isSecureApiKey = true := by
  unfold updateDocFlags
  split <;> simp_all <;> split <;> simp_all

theorem updateDocFlags_basic_set (st : BState) (m : Method)
    (h : (m.isSecure && m.isSecureBasic) = true) :
    (updateDocFlags st m).isSecureBasic = true := by
  unfold updateDocFlags
  split <;> simp_all

/-- Characterization of a successful `processOpV2`: exactly one method is
appended, carrying the path, the upper-cased verb, and a method name fresh
for the allocator; the document-wide security flags are monotone. -/
theorem processOpV2_ok {opts : Opts} {isNode : Bool} {doc : SwaggerDoc}
    {path m : String} {op : SwaggerOp} {gp : List Nat} {st st' : BState}
    (h : processOpV2 opts isNode doc path m op gp st = .ok st') :
    ∃ mth : Method,
      mth.path = path ∧ mth.method = jsToUpper m ∧
      mth.methodName ∉ st.names ∧
      st'.methods = st.methods ++ [mth] ∧
      st'.names = st.names ++ [mth.methodName] ∧
      (st.isSecureToken = true → st'.isSecureToken = true) ∧
      (st.isSecureApiKey = true → st'.isSecureApiKey = true) ∧
      (st.isSecureBasic = true → st'.isSecureBasic = true) := by
  simp only [processOpV2] at h
  split at h
  · exact absurd h (by simp)
  · split at h
    · exact absurd h (by simp)
    · rename_i ps hps
      simp only [Except.ok.injEq] at h
      subst h
      refine ⟨_, ?_, ?_, ?_, by rw [updateDocFlags_methods], by rw [updateDocFlags_names],
        fun ht => updateDocFlags_token_mono _ _ ht,
        fun ht => updateDocFlags_apiKey_mono _ _ ht,
        fun ht => updateDocFlags_basic_mono _ _ ht⟩
      · rfl
      · rfl
      · exact allocateName_not_mem st.names _

/-- If the operation's computed security resolves to a kind and the
operation is secure, `processOpV2` promotes the document-wide flag. -/
theorem processOpV2_promotes {opts : Opts} {isNode : Bool} {doc : SwaggerDoc}
    {path m : String} {op : SwaggerOp} {gp : List Nat} {st st' : BState}
    (h : processOpV2 opts isNode doc path m op gp st = .ok st')
    (hsec : (doc.security.isSome || op.security.isSome) = true) :
    ((secureTypesV2 doc.securityDefinitions doc.security op.security).contains "oauth2" = true →
      st'.isSecureToken = true) ∧
    ((secureTypesV2 doc.securityDefinitions doc.security op.security).contains "apiKey" = true →
      st'.isSecureApiKey = true) ∧
    ((secureTypesV2 doc.securityDefinitions doc.security op.security).contains "basic" = true →
      st'.isSecureBasic = true) := by
  simp only [processOpV2] at h
  split at h
  · exact absurd h (by simp)
  · split at h
    · exact absurd h (by simp)
    · rename_i ps hps
      simp only [Except.ok.injEq] at h
      subst h
      refine ⟨fun ht => updateDocFlags_token_set _ _ ?_,
              fun ht => updateDocFlags_apiKey_set _ _ ?_,
              fun ht => updateDocFlags_basic_set _ _ ?_⟩
      all_goals simp only [Bool.and_eq_true]
      all_goals exact ⟨hsec, ht⟩

theorem runOpsV2_ok {opts : Opts} {isNode : Bool} {doc : SwaggerDoc} {path : String}
    {gp : List Nat} :
    ∀ {entries : List (String × PathEntry)} {st st' : BState},
      runOpsV2 opts isNode doc path gp st entries = .ok st' →
      (st'.methods.map (fun mt => (mt.path, mt.method))
         = st.methods.map (fun mt => (mt.path, mt.method)) ++ retainedOfApi path entries)
      ∧ (st.names = st.methods.map (fun mt => mt.methodName) → st.names.Nodup →
          st'.names = st'.methods.map (fun mt => mt.methodName) ∧ st'.names.Nodup)
      ∧ (st.isSecureToken = true → st'.isSecureToken = true)
      ∧ (st.isSecureApiKey = true → st'.isSecureApiKey = true)
      ∧ (st.isSecureBasic = true → st'.isSecureBasic = true) := by
  intro entries
  induction entries with
  | nil =>
    intro st st' h
    simp only [runOpsV2, Except.ok.injEq] at h
    subst h
    exact ⟨by simp [retainedOfApi], fun a b => ⟨a, b⟩, id, id, id⟩
  | cons e rest ih =>
    intro st st' h
    obtain ⟨m, pe⟩ := e
    match pe with
    | .arr l =>
      simp only [runOpsV2] at h
      have := ih h
      simpa [retainedOfApi] using this
    | .op op =>
      simp only [runOpsV2] at h
      by_cases hk : keepVerb m
      · simp only [hk, if_true] at h
        split at h
        · exact absurd h (by simp)
        · rename_i st1 hstep
          obtain ⟨mth, hpath, hverb, hfresh, hms, hns, htok, hapi, hbas⟩ := processOpV2_ok hstep
          obtain ⟨ih1, ih2, ih3, ih4, ih5⟩ := ih h
          refine ⟨?_, ?_, fun hh => ih3 (htok hh), fun hh => ih4 (hapi hh),
            fun hh => ih5 (hbas hh)⟩
          · rw [ih1, hms]
            simp [retainedOfApi, hk, hpath, hverb]
          · intro hinv hnd
            apply ih2
            · rw [hns, hms, hinv]
              simp
            · rw [hns]
              simp [List.nodup_append, hnd, hfresh]
      · simp only [hk, if_false] at h
        have := ih h
        simpa [retainedOfApi, hk] using this

theorem runPathsV2_ok {opts : Opts} {isNode : Bool} {doc : SwaggerDoc} :
    ∀ {paths : List (String × List (String × PathEntry))} {st st' : BState},
      runPathsV2 opts isNode doc st paths = .ok st' →
      (st'.methods.map (fun mt => (mt.path, mt.method))
         = st.methods.map (fun mt => (mt.path, mt.method))
           ++ paths.flatMap (fun pr => retainedOfApi pr.1 pr.2))
      ∧ (st.names = st.methods.map (fun mt => mt.methodName) → st.names.Nodup →
          st'.names = st'.methods.map (fun mt => mt.methodName) ∧ st'.names.Nodup)
      ∧ (st.isSecureToken = true → st'.isSecureToken = true)
      ∧ (st.isSecureApiKey = true → st'.isSecureApiKey = true)
      ∧ (st.isSecureBasic = true → st'.isSecureBasic = true) := by
  intro paths
  induction paths with
  | nil =>
    intro st st' h
    simp only [runPathsV2, Except.ok.injEq] at h
    subst h
    exact ⟨by simp, fun a b => ⟨a, b⟩, id, id, id⟩
  | cons pr rest ih =>
    intro st st' h
    simp only [runPathsV2] at h
    split at h
    · exact absurd h (by simp)
    · rename_i st1 hops
      obtain ⟨o1, o2, o3, o4, o5⟩ := runOpsV2_ok hops
      obtain ⟨ih1, ih2, ih3, ih4, ih5⟩ := ih h
      refine ⟨?_, ?_, fun hh => ih3 (o3 hh), fun hh => ih4 (o4 hh),
        fun hh => ih5 (o5 hh)⟩
      · rw [ih1, o1]
        simp
      · intro hinv hnd
        obtain ⟨q1, q2⟩ := o2 hinv hnd
        exact ih2 q1 q2

/-! ## Parameter-loop lemmas -/

theorem classifyParamV2_preserves (p : SwaggerParam) :
    (classifyParamV2 p).xExcludeFromBindings = p.xExcludeFromBindings ∧
    (classifyParamV2 p).xProxyHeader = p.xProxyHeader ∧
    (classifyParamV2 p).ref = p.ref := by
  simp only [classifyParamV2]
  repeat' split
  all_goals exact ⟨rfl, rfl, rfl⟩

theorem classifyParamV3_preserves (p : SwaggerParam) :
    (classifyParamV3 p).xExcludeFromBindings = p.xExcludeFromBindings ∧
    (classifyParamV3 p).xProxyHeader = p.xProxyHeader ∧
    (classifyParamV3 p).ref = p.ref := by
  simp only [classifyParamV3]
  repeat' split
  all_goals exact ⟨rfl, rfl, rfl⟩

theorem get?_set_self' {α : Type} {l : List α} {i : Nat} {x p : α}
    (h : l.get? i = some p) : (l.set i x).get? i = some x := by
  have hi : i < l.length := by
    by_contra hge
    rw [List.get?_eq_getElem?, List.getElem?_eq_none (by omega)] at h
    exact absurd h (by simp)
  rw [List.get?_eq_getElem?, List.getElem?_set_self hi]

theorem get?_set_ne' {α : Type} {l : List α} {i j : Nat} {x : α}
    (h : i ≠ j) : (l.set i x).get? j = l.get? j := by
  rw [List.get?_eq_getElem?, List.getElem?_set_ne h, List.get?_eq_getElem?]

/-- Writing a classified node back at its own address does not change any
node's raw filter fields. -/
theorem rawFlags_set_classifyV2 {store : List SwaggerParam} {a : Nat} {p : SwaggerParam}
    (hget : store.get? a = some p) (b : Nat) :
    rawFlags (store.set a (classifyParamV2 p)) b = rawFlags store b := by
  unfold rawFlags
  by_cases hab : a = b
  · subst hab
    rw [get?_set_self' hget, hget]
    obtain ⟨h1, h2, h3⟩ := classifyParamV2_preserves p
    simp [h1, h2, h3]
  · rw [get?_set_ne' hab]

theorem rawFlags_set_classifyV3 {store : List SwaggerParam} {a : Nat} {p : SwaggerParam}
    (hget : store.get? a = some p) (b : Nat) :
    rawFlags (store.set a (classifyParamV3 p)) b = rawFlags store b := by
  unfold rawFlags
  by_cases hab : a = b
  · subst hab
    rw [get?_set_self' hget, hget]
    obtain ⟨h1, h2, h3⟩ := classifyParamV3_preserves p
    simp [h1, h2, h3]
  · rw [get?_set_ne' hab]

theorem excludedAt_congr {s1 s2 : List SwaggerParam} {b : Nat}
    (h : rawFlags s1 b = rawFlags s2 b) : excludedAt s1 b = excludedAt s2 b := by
  unfold excludedAt
  unfold rawFlags at h
  cases h1 : s1.get? b <;> cases h2 : s2.get? b <;>
    simp only [h1, h2, Option.map_some, Option.map_none] at h ⊢ <;> simp_all

theorem goodEntryV2_congr {isNode : Bool} {s1 s2 : List SwaggerParam} {b : Nat}
    (h : rawFlags s1 b = rawFlags s2 b) :
    goodEntryV2 isNode s1 b = goodEntryV2 isNode s2 b := by
  unfold goodEntryV2
  unfold rawFlags at h
  cases h1 : s1.get? b <;> cases h2 : s2.get? b <;>
    simp only [h1, h2, Option.map_some, Option.map_none] at h ⊢ <;> simp_all

/-- A successful V2 step preserves every node's raw filter fields. -/
theorem stepParamV2_rawFlags {tbl : List (String × Nat)} {isNode : Bool}
    {s s' : PState} {a : Nat} (h : stepParamV2 tbl isNode s a = .ok s') (b : Nat) :
    rawFlags s'.store b = rawFlags s.store b := by
  unfold stepParamV2 at h
  split at h
  · exact absurd h (by simp)
  · rename_i node hget
    split at h
    · simp only [Except.ok.injEq] at h; subst h; rfl
    · split at h
      · simp only [Except.ok.injEq] at h; subst h; rfl
      · split at h
        · simp only [Except.ok.injEq] at h
          subst h
          exact rawFlags_set_classifyV2 hget b
        · split at h
          · exact absurd h (by simp)
          · split at h
            · exact absurd h (by simp)
            · split at h
              · exact absurd h (by simp)
              · rename_i node2 hget2
                simp only [Except.ok.injEq] at h
                subst h
                exact rawFlags_set_classifyV2 hget2 b

/-- A successful V2 step only appends to the collected address list. -/
theorem stepParamV2_addrs {tbl : List (String × Nat)} {isNode : Bool}
    {s s' : PState} {a : Nat} (h : stepParamV2 tbl isNode s a = .ok s') :
    s.addrs ⊆ s'.addrs := by
  unfold stepParamV2 at h
  split at h
  · exact absurd h (by simp)
  · split at h
    · simp only [Except.ok.injEq] at h; subst h; exact fun x hx => hx
    · split at h
      · simp only [Except.ok.injEq] at h; subst h; exact fun x hx => hx
      · split at h
        · simp only [Except.ok.injEq] at h; subst h
          exact fun x hx => List.mem_append.2 (Or.inl hx)
        · split at h
          · exact absurd h (by simp)
          · split at h
            · exact absurd h (by simp)
            · split at h
              · exact absurd h (by simp)
              · simp only [Except.ok.injEq] at h; subst h
                exact fun x hx => List.mem_append.2 (Or.inl hx)

/-- An excluded entry is skipped with the state unchanged. -/
theorem stepParamV2_excluded {tbl : List (String × Nat)} {isNode : Bool}
    {s : PState} {a : Nat} (h : excludedAt s.store a = true) :
    stepParamV2 tbl isNode s a = .ok s := by
  unfold excludedAt at h
  unfold stepParamV2
  split
  · rename_i hget
    rw [hget] at h
    exact absurd h (by simp)
  · rename_i node hget
    rw [hget] at h
    simp only [] at h
    simp [h]

theorem stepParamV3_excluded {compParams : Option (List (String × Nat))} {isNode : Bool}
    {s : PState3} {a : Nat} (h : excludedAt s.store a = true) :
    stepParamV3 compParams isNode s a = .ok s := by
  unfold excludedAt at h
  unfold stepParamV3
  split
  · rename_i hget
    rw [hget] at h
    exact absurd h (by simp)
  · rename_i node hget
    rw [hget] at h
    simp only [] at h
    simp [h]

/-- A successful V3 step preserves every node's raw filter fields. -/
theorem stepParamV3_rawFlags {compParams : Option (List (String × Nat))} {isNode : Bool}
    {s s' : PState3} {a : Nat} (h : stepParamV3 compParams isNode s a = .ok s') (b : Nat) :
    rawFlags s'.store b = rawFlags s.store b := by
  unfold stepParamV3 at h
  split at h
  · exact absurd h (by simp)
  · rename_i node hget
    split at h
    · simp only [Except.ok.injEq] at h; subst h; rfl
    · split at h
      · simp only [Except.ok.injEq] at h; subst h; rfl
      · split at h
        · exact absurd h (by simp)
        · rename_i a' node' hres
          simp only [Except.ok.injEq] at h
          subst h
          -- the resolved node was read from the store
          have hget' : s.store.get? a' = some node' := by
            split at hres
            · simp only [Except.ok.injEq, Prod.mk.injEq] at hres
              obtain ⟨h1, h2⟩ := hres
              subst h1; subst h2; exact hget
            · split at hres
              · exact absurd hres (by simp)
              · split at hres
                · exact absurd hres (by simp)
                · split at hres
                  · exact absurd hres (by simp)
                  · split at hres
                    · exact absurd hres (by simp)
                    · rename_i node2 hget2
                      simp only [Except.ok.injEq, Prod.mk.injEq] at hres
                      obtain ⟨h1, h2⟩ := hres
                      subst h1; subst h2; exact hget2
          exact rawFlags_set_classifyV3 hget' b

/-- C5's amended core, V2: the parameter loop ignores entries excluded at
loop entry — running it on the filtered list gives the same outcome. -/
theorem runParamsV2_filter_excluded (tbl : List (String × Nat)) (isNode : Bool) :
    ∀ (entries : List Nat) (s : PState),
      runParamsV2 tbl isNode s entries
        = runParamsV2 tbl isNode s (entries.filter (fun a => !excludedAt s.store a)) := by
  intro entries
  induction entries with
  | nil => intro s; rfl
  | cons a rest ih =>
    intro s
    by_cases hex : excludedAt s.store a = true
    · rw [show (a :: rest).filter (fun b => !excludedAt s.store b)
          = rest.filter (fun b => !excludedAt s.store b) by simp [List.filter, hex]]
      rw [show runParamsV2 tbl isNode s (a :: rest) = runParamsV2 tbl isNode s rest by
        simp [runParamsV2, stepParamV2_excluded hex]]
      exact ih s
    · rw [show (a :: rest).filter (fun b => !excludedAt s.store b)
          = a :: rest.filter (fun b => !excludedAt s.store b) by
        simp [List.filter, hex]]
      simp only [runParamsV2]
      cases hstep : stepParamV2 tbl isNode s a with
      | error e => rfl
      | ok s' =>
        have hpred : (fun b => !excludedAt s'.store b) = (fun b => !excludedAt s.store b) := by
          funext b
          rw [excludedAt_congr (stepParamV2_rawFlags hstep b)]
        show runParamsV2 tbl isNode s' rest
          = runParamsV2 tbl isNode s' (rest.filter (fun b => !excludedAt s.store b))
        rw [ih s', hpred]

/-- C5's amended core, V3. -/
theorem runParamsV3_filter_excluded (compParams : Option (List (String × Nat))) (isNode : Bool) :
    ∀ (entries : List Nat) (s : PState3),
      runParamsV3 compParams isNode s entries
        = runParamsV3 compParams isNode s (entries.filter (fun a => !excludedAt s.store a)) := by
  intro entries
  induction entries with
  | nil => intro s; rfl
  | cons a rest ih =>
    intro s
    by_cases hex : excludedAt s.store a = true
    · rw [show (a :: rest).filter (fun b => !excludedAt s.store b)
          = rest.filter (fun b => !excludedAt s.store b) by simp [List.filter, hex]]
      rw [show runParamsV3 compParams isNode s (a :: rest) = runParamsV3 compParams isNode s rest by
        simp [runParamsV3, stepParamV3_excluded hex]]
      exact ih s
    · rw [show (a :: rest).filter (fun b => !excludedAt s.store b)
          = a :: rest.filter (fun b => !excludedAt s.store b) by
        simp [List.filter, hex]]
      simp only [runParamsV3]
      cases hstep : stepParamV3 compParams isNode s a with
      | error e => rfl
      | ok s' =>
        have hpred : (fun b => !excludedAt s'.store b) = (fun b => !excludedAt s.store b) := by
          funext b
          rw [excludedAt_congr (stepParamV3_rawFlags hstep b)]
        show runParamsV3 compParams isNode s' rest
          = runParamsV3 compParams isNode s' (rest.filter (fun b => !excludedAt s.store b))
        rw [ih s', hpred]

theorem stepParamV2_good {tbl : List (String × Nat)} {isNode : Bool}
    {s : PState} {a : Nat} (h : goodEntryV2 isNode s.store a = true) :
    ∃ node, s.store.get? a = some node ∧
      stepParamV2 tbl isNode s a
        = .ok { store := s.store.set a (classifyParamV2 node), addrs := s.addrs ++ [a] } := by
  unfold goodEntryV2 at h
  cases hget : s.store.get? a with
  | none => rw [hget] at h; exact absurd h (by simp)
  | some node =>
    rw [hget] at h
    simp only [Bool.and_eq_true, Bool.not_eq_true', Option.isNone_iff_eq_none] at h
    obtain ⟨⟨h1, h2⟩, h3⟩ := h
    refine ⟨node, rfl, ?_⟩
    unfold stepParamV2
    rw [hget]
    simp [h1, h2, h3]

theorem runParamsV2_addrs_mono {tbl : List (String × Nat)} {isNode : Bool} :
    ∀ {entries : List Nat} {s s' : PState},
      runParamsV2 tbl isNode s entries = .ok s' → s.addrs ⊆ s'.addrs := by
  intro entries
  induction entries with
  | nil =>
    intro s s' h
    simp only [runParamsV2, Except.ok.injEq] at h
    subst h
    exact fun x hx => hx
  | cons a rest ih =>
    intro s s' h
    simp only [runParamsV2] at h
    split at h
    · exact absurd h (by simp)
    · rename_i s1 hstep
      exact fun x hx => ih h (stepParamV2_addrs hstep hx)

/-- Every entry that the V2 loop processes directly (present, not
excluded, not proxy-blocked, not a `$ref`) has its heap address pushed
onto the method's parameter list. -/
theorem runParamsV2_good_mem {tbl : List (String × Nat)} {isNode : Bool} :
    ∀ {entries : List Nat} {s s' : PState},
      runParamsV2 tbl isNode s entries = .ok s' →
      ∀ a ∈ entries, goodEntryV2 isNode s.store a = true → a ∈ s'.addrs := by
  intro entries
  induction entries with
  | nil => intro s s' h a ha; simp at ha
  | cons e rest ih =>
    intro s s' h a ha hgood
    simp only [runParamsV2] at h
    split at h
    · exact absurd h (by simp)
    · rename_i s1 hstep
      rcases List.mem_cons.1 ha with rfl | hmem
      · obtain ⟨node, hget, hspec⟩ := @stepParamV2_good tbl isNode s a hgood
        rw [hspec] at hstep
        simp only [Except.ok.injEq] at hstep
        have : a ∈ s1.addrs := by
          rw [← hstep]
          simp
        exact runParamsV2_addrs_mono h this
      · have hgood1 : goodEntryV2 isNode s1.store a = true := by
          rw [goodEntryV2_congr (stepParamV2_rawFlags hstep a)]
          exact hgood
        exact ih h a hmem hgood1

theorem resolvedAddrV2_congr {tbl : List (String × Nat)} {isNode : Bool}
    {s1 s2 : List SwaggerParam} {a : Nat}
    (h : rawFlags s1 a = rawFlags s2 a) :
    resolvedAddrV2 tbl isNode s1 a = resolvedAddrV2 tbl isNode s2 a := by
  unfold resolvedAddrV2
  unfold rawFlags at h
  cases h1 : s1.get? a <;> cases h2 : s2.get? a <;>
    simp only [h1, h2, Option.map_some, Option.map_none] at h ⊢ <;> simp_all

/-- A successful V2 step appends exactly the entry's resolved address (or
nothing when the entry is skipped). -/
theorem stepParamV2_addr_spec {tbl : List (String × Nat)} {isNode : Bool}
    {s s' : PState} {a : Nat} (h : stepParamV2 tbl isNode s a = .ok s') :
    s'.addrs = s.addrs ++ (resolvedAddrV2 tbl isNode s.store a).toList := by
  unfold stepParamV2 at h
  split at h
  · exact absurd h (by simp)
  · rename_i node hget
    split at h
    · rename_i hex
      simp only [Except.ok.injEq] at h
      subst h
      unfold resolvedAddrV2
      rw [hget]
      simp [hex]
    · rename_i hex
      split at h
      · rename_i hpr
        simp only [Except.ok.injEq] at h
        subst h
        unfold resolvedAddrV2
        rw [hget]
        simp [hex, hpr]
      · rename_i hpr
        split at h
        · rename_i href
          simp only [Except.ok.injEq] at h
          subst h
          unfold resolvedAddrV2
          rw [hget]
          simp [hex, hpr, href]
        · rename_i r href
          split at h
          · exact absurd h (by simp)
          · rename_i nm hname
            split at h
            · exact absurd h (by simp)
            · rename_i a2 hlook
              split at h
              · exact absurd h (by simp)
              · rename_i node2 hget2
                simp only [Except.ok.injEq] at h
                subst h
                unfold resolvedAddrV2
                rw [hget]
                simp [hex, hpr, href, hname, hlook]

/-- The V2 parameter loop collects exactly the declared entries' resolved
addresses, in declaration order. -/
theorem runParamsV2_addr_order {tbl : List (String × Nat)} {isNode : Bool} :
    ∀ {entries : List Nat} {s s' : PState},
      runParamsV2 tbl isNode s entries = .ok s' →
      s'.addrs = s.addrs
        ++ entries.filterMap (fun a => resolvedAddrV2 tbl isNode s.store a) := by
  intro entries
  induction entries with
  | nil =>
    intro s s' h
    simp only [runParamsV2, Except.ok.injEq] at h
    subst h
    simp
  | cons e rest ih =>
    intro s s' h
    simp only [runParamsV2] at h
    split at h
    · exact absurd h (by simp)
    · rename_i s1 hstep
      have h1 := stepParamV2_addr_spec hstep
      have h2 := ih h
      have hfun : (fun b => resolvedAddrV2 tbl isNode s1.store b)
          = (fun b => resolvedAddrV2 tbl isNode s.store b) := by
        funext b
        exact resolvedAddrV2_congr (stepParamV2_rawFlags hstep b)
      rw [h2, hfun, h1]
      cases hres : resolvedAddrV2 tbl isNode s.store e <;>
        simp [List.filterMap_cons, hres]

/-- A successful `processOpV2` appends one method whose parameter list is
the declared entry list (own parameters, then path-shared ones), in
declaration order, each entry replaced by its resolved heap address and
skipped entries omitted. -/
theorem processOpV2_param_order {opts : Opts} {isNode : Bool} {doc : SwaggerDoc}
    {path m : String} {op : SwaggerOp} {gp : List Nat} {st st' : BState}
    (h : processOpV2 opts isNode doc path m op gp st = .ok st') :
    ∃ mth : Method,
      st'.methods = st.methods ++ [mth] ∧
      mth.parameters = (op.parameters.getD [] ++ gp).filterMap
        (fun a => resolvedAddrV2 doc.parameters isNode st.store a) := by
  simp only [processOpV2] at h
  split at h
  · exact absurd h (by simp)
  · split at h
    · exact absurd h (by simp)
    · rename_i ps hps
      simp only [Except.ok.injEq] at h
      subst h
      refine ⟨_, by rw [updateDocFlags_methods], ?_⟩
      show ps.addrs = _
      have := runParamsV2_addr_order hps
      simpa using this

/-! ## Security-merge membership lemmas -/

theorem keyUnion_mem {x y : List String} {k : String} (h : k ∈ x ∨ k ∈ y) :
    k ∈ keyUnion x y := by
  unfold keyUnion
  by_cases hx : k ∈ x
  · exact List.mem_append.2 (Or.inl hx)
  · rcases h with h | h
    · exact absurd h hx
    · refine List.mem_append.2 (Or.inr (List.mem_filter.2 ⟨h, ?_⟩))
      simpa using hx

theorem mergeReqs_mem : ∀ (g o : List (List String)) (k : String),
    (k ∈ g.flatten ∨ k ∈ o.flatten) → k ∈ (mergeReqs g o).flatten := by
  intro g
  induction g with
  | nil =>
    intro o k h
    rcases h with h | h
    · simp at h
    · cases o with
      | nil => simp at h
      | cons y ys => simpa [mergeReqs] using h
  | cons x xs ih =>
    intro o k h
    cases o with
    | nil =>
      rcases h with h | h
      · simpa [mergeReqs] using h
      · simp at h
    | cons y ys =>
      simp only [mergeReqs, List.flatten_cons, List.mem_append]
      rcases h with h | h
      · rw [List.flatten_cons] at h
        rcases List.mem_append.1 h with h1 | h1
        · exact Or.inl (keyUnion_mem (Or.inl h1))
        · exact Or.inr (ih ys k (Or.inl h1))
      · rw [List.flatten_cons] at h
        rcases List.mem_append.1 h with h1 | h1
        · exact Or.inl (keyUnion_mem (Or.inr h1))
        · exact Or.inr (ih ys k (Or.inr h1))

/-! ## The claims -/

/-- C1, counterexample.  The claim predicts that with an operation-level
security list present the merged requirement set equals the operation
list alone (`["opKey"]`); the code's `_.merge` keeps the document-level
entry's scheme name `docKey` at index 0, and a document-level scheme
therefore still drives the method security flags (`apiKey` here). -/
theorem C1_counterexample :
    mergedKeysV3 (some [["docKey"]]) (some [["opKey"]]) = ["docKey", "opKey"]
    ∧ mergedKeysV3 (some [["docKey"]]) (some [["opKey"]]) ≠ ["opKey"]
    ∧ secureTypesV3 (some [("docKey", "apiKey")]) (some [["docKey"]]) (some [["opKey"]])
        = ["apiKey"] := by decide

/-- C1 (corrected).  The merged requirement list used for the security
flags is the index-wise lodash merge of the document-level and the
operation-level lists: every scheme name of either list — in particular
every document-level one — contributes to the merged key set, also when
the operation declares its own list.  Operation-level requirements do not
replace document-level ones. -/
theorem C1_merged_security_is_union :
    ∀ (docSec opSec : List (List String)) (k : String),
      (k ∈ docSec.flatten ∨ k ∈ opSec.flatten) →
      k ∈ mergedKeysV3 (some docSec) (some opSec) := by
  intro g o k h
  unfold mergedKeysV3 mergedSecurity
  simpa using mergeReqs_mem g o k h

/-- C1, witness: the document-level scheme name is in the merge although
an operation-level list is present. -/
theorem C1_witness :
    "docKey" ∈ mergedKeysV3 (some [["docKey"]]) (some [["opKey"]]) :=
  C1_merged_security_is_union [["docKey"]] [["opKey"]] "docKey" (Or.inl (by decide))

/-- C2, counterexample.  A `$ref` to a shared parameter absent from the
flat table aborts the V2 build with a `TypeError` (the JS code assigns
`camelCaseName` on the `undefined` lookup result) — not with the
`BrokenReference` error the claim requires. -/
theorem C2_counterexample :
    getViewForSwagger2 {} "node" docBrokenRef
      = .error (.typeError "cannot set camelCaseName of undefined")
    ∧ (JsError.typeError "cannot set camelCaseName of undefined").isBrokenReference = false :=
  ⟨rfl, rfl⟩

/-- C2 (corrected).  For both backing tables (the Swagger-2.0 flat
`parameters` table and the OpenAPI-3.x `components.parameters` table), a
parameter entry whose `$ref` names a missing shared parameter makes the
loop step fail with a generic `TypeError` — the resolution yields
`undefined` and the next property write throws; no `BrokenReference`
error exists in the code, and because the error propagates out of the
builder no (partial) view model is returned. -/
theorem C2_broken_ref_type_error :
    (∀ (tbl : List (String × Nat)) (isNode : Bool) (s : PState) (a : Nat)
        (node : SwaggerParam) (r nm : String),
        s.store.get? a = some node →
        node.xExcludeFromBindings = false →
        (node.xProxyHeader && !isNode) = false →
        node.ref = some r →
        refTargetNameV2 r = some nm →
        lookupStr tbl nm = none →
        stepParamV2 tbl isNode s a
          = .error (.typeError "cannot set camelCaseName of undefined"))
    ∧ (∀ (tbl : List (String × Nat)) (isNode : Bool) (s : PState3) (a : Nat)
        (node : SwaggerParam) (r nm : String),
        s.store.get? a = some node →
        node.xExcludeFromBindings = false →
        (node.xProxyHeader && !isNode) = false →
        node.ref = some r →
        refTargetNameV3 r = some nm →
        lookupStr tbl nm = none →
        stepParamV3 (some tbl) isNode s a
          = .error (.typeError "cannot set camelCaseName of undefined"))
    ∧ (∀ msg : String, (JsError.typeError msg).isBrokenReference = false) := by
  refine ⟨?_, ?_, fun _ => rfl⟩
  · intro tbl isNode s a node r nm hget hexcl hproxy href hname hlook
    unfold stepParamV2
    rw [hget]
    simp [hexcl, hproxy, href, hname, hlook]
  · intro tbl isNode s a node r nm hget hexcl hproxy href hname hlook
    unfold stepParamV3
    rw [hget]
    simp [hexcl, hproxy, href, hname, hlook]

/-- C2, witness: the concrete dangling reference of `docBrokenRef` makes
the V2 loop step raise the `TypeError`. -/
theorem C2_witness :
    stepParamV2 [] true { store := [{ ref := some "#/parameters/Missing" }] } 0
      = .error (.typeError "cannot set camelCaseName of undefined") :=
  C2_broken_ref_type_error.1 [] true _ 0 { ref := some "#/parameters/Missing" }
    "#/parameters/Missing" "Missing" rfl rfl rfl rfl (by decide) rfl

/-- C3, counterexample.  The dispatcher's switch matches the exact string
`'3.0.3'` only: a document with `openapi: '3.1.0'` is sent to the legacy
Swagger-1.x builder, not to the OpenAPI-3.x builder; and a document with
no `swagger` field but `openapi: '2.0'` is sent to the Swagger-2.0
builder, so `swagger === '2.0'` is not an exact characterization either. -/
theorem C3_counterexample :
    selectBuilder none (some "3.1.0") = BuilderKind.v1
    ∧ BuilderKind.v1 ≠ BuilderKind.v3
    ∧ selectBuilder none (some "2.0") = BuilderKind.v2 := by decide

/-- C3 (corrected).  The dispatcher switches on the first truthy of the
`swagger` and `openapi` markers: it selects the Swagger-2.0 builder
exactly when that value is `'2.0'`, the OpenAPI-3.x builder exactly when
it is the exact string `'3.0.3'` (any other `openapi` value, e.g.
`'3.1.0'`, is not matched), and otherwise falls back to the legacy
Swagger-1.x builder without raising an error. -/
theorem C3_dispatcher_exact_markers :
    ∀ (sw op : Option String),
      (selectBuilder sw op = BuilderKind.v2 ↔ jsOrStr sw op = some "2.0")
      ∧ (selectBuilder sw op = BuilderKind.v3 ↔ jsOrStr sw op = some "3.0.3")
      ∧ (jsOrStr sw op ≠ some "2.0" → jsOrStr sw op ≠ some "3.0.3" →
          selectBuilder sw op = BuilderKind.v1) := by
  intro sw op
  unfold selectBuilder
  cases h : jsOrStr sw op with
  | none => simp
  | some s =>
    by_cases h2 : s = "2.0"
    · subst h2; simp
    · by_cases h3 : s = "3.0.3"
      · subst h3; simp
      · simp [h2, h3]

/-- C3, witness: an unrecognized marker falls back to the legacy builder. -/
theorem C3_witness : selectBuilder none (some "9.9") = BuilderKind.v1 :=
  (C3_dispatcher_exact_markers none (some "9.9")).2.2 (by decide) (by decide)

/-- C4 (code bug).  Both verb whitelists contain the misspelling
`'UNLIK'` instead of the HTTP verb `UNLINK`: an operation under the verb
`unlink` fails the membership test and produces no method, contradicting
the claim (and the spec's whitelist, which lists `UNLINK`). -/
theorem C4_unlink_dropped :
    authorizedMethods.contains "UNLINK" = false
    ∧ authorizedMethodsV3.contains "UNLINK" = false
    ∧ authorizedMethods.contains "UNLIK" = true
    ∧ authorizedMethodsV3.contains "UNLIK" = true
    ∧ keepVerb "unlink" = false
    ∧ keepVerb "get" = true
    ∧ builtNames {} "node" docUnlink = [] := by decide

/-- C5, counterexample.  (i) The legacy V1 builder has no exclusion
filter: a parameter flagged `x-exclude-from-bindings` appears in the view
model.  (ii) In the V2 builder the flag is tested on the referencing
entry before `$ref` resolution, so a flag on the shared target of a
`$ref` is not honored: the flagged shared node (heap address 1) ends up
in the method's parameter list. -/
theorem C5_counterexample :
    ((getViewForSwagger1 {} "node" docV1Excl).methods.map
        (fun mt => mt.parameters.map (fun p => p.xExcludeFromBindings))) = [[true]]
    ∧ (viewOrDefault {} "node" docRefExcl).1.methods.map (fun mt => mt.parameters) = [[1]]
    ∧ ((viewOrDefault {} "node" docRefExcl).2.get? 1).map (fun p => p.xExcludeFromBindings)
        = some true
    ∧ getViewForSwagger2 {} "node" docRefExcl = .ok (viewOrDefault {} "node" docRefExcl) :=
  ⟨by decide, by decide, by decide, rfl⟩

/-- C5 (corrected).  In the V2 and V3 builders a parameter-list entry
whose own `x-exclude-from-bindings` is `true` contributes nothing: the
parameter loops behave identically on the entry list with such entries
filtered out (so no Parameter and no heap write derives from them).  The
flag is only honored on the entry itself — not through a `$ref` — and the
legacy V1 builder applies no exclusion at all. -/
theorem C5_excluded_entries_contribute_nothing :
    (∀ (tbl : List (String × Nat)) (isNode : Bool) (s : PState) (entries : List Nat),
      runParamsV2 tbl isNode s entries
        = runParamsV2 tbl isNode s (entries.filter (fun a => !excludedAt s.store a)))
    ∧ (∀ (compParams : Option (List (String × Nat))) (isNode : Bool) (s : PState3)
        (entries : List Nat),
      runParamsV3 compParams isNode s entries
        = runParamsV3 compParams isNode s (entries.filter (fun a => !excludedAt s.store a))) :=
  ⟨fun tbl isNode s entries => runParamsV2_filter_excluded tbl isNode entries s,
   fun cp isNode s entries => runParamsV3_filter_excluded cp isNode entries s⟩

/-- C6 (confirmed).  After any V2 build the allocated method names are
pairwise distinct — the allocator tries `name_1`, `name_2`, … and takes
the first unused candidate — and two operations with the duplicate
operation id `list` yield the method names `list` and `list_1` in
document order. -/
theorem C6_method_names_unique :
    (∀ (opts : Opts) (type : String) (doc : SwaggerDoc), (builtNames opts type doc).Nodup)
    ∧ builtNames {} "node" docDup = ["list", "list_1"] := by
  constructor
  · intro opts type doc
    cases hok : getViewForSwagger2 opts type doc with
    | error e => simp [builtNames, hok]
    | ok p =>
      obtain ⟨v, heap⟩ := p
      have hshow : builtNames opts type doc = v.methods.map (fun mt => mt.methodName) := by
        simp [builtNames, hok]
      rw [hshow]
      simp only [getViewForSwagger2] at hok
      split at hok
      · exact absurd hok (by simp)
      · rename_i st1 hrun
        simp only [Except.ok.injEq, Prod.mk.injEq] at hok
        obtain ⟨hv, -⟩ := hok
        obtain ⟨-, h2, -, -, -⟩ := runPathsV2_ok hrun
        obtain ⟨q1, q2⟩ := h2 rfl List.nodup_nil
        rw [← hv]
        show (st1.methods.map (fun mt => mt.methodName)).Nodup
        rw [← q1]
        exact q2
  · decide

/-- C7 (confirmed).  Path-derived method names: `/users/{id}` with verb
`get` yields `getUsersById` (the brace segment is rewritten to `byId`,
the joined segments are camelCased and prefixed with the lower-cased verb
and a capital first letter), and the paths `/` and `""` yield the verb
itself. -/
theorem C7_path_verb_method_name :
    getPathToMethodName "get" "/users/\x7bid\x7d" = "getUsersById"
    ∧ (∀ m : String, getPathToMethodName m "/" = m)
    ∧ (∀ m : String, getPathToMethodName m "" = m) := by
  refine ⟨by decide, ?_, ?_⟩
  · intro m
    simp [getPathToMethodName]
  · intro m
    simp [getPathToMethodName]

/-- C8 (confirmed).  The V2 builder is a pure function of the document,
the options and the target type — equal inputs give byte-identical view
models; on success the methods appear exactly in the document's
path/verb iteration order; the parameter loop collects exactly the
declared entries' resolved addresses in declaration order; and every
built method's parameter list is its declared entry list (own parameters
then path-shared ones) in declaration order, each entry replaced by its
resolved heap address with skipped entries omitted. -/
theorem C8_builder_deterministic_ordered :
    (∀ (opts : Opts) (type : String) (d₁ d₂ : SwaggerDoc), d₁ = d₂ →
      getViewForSwagger2 opts type d₁ = getViewForSwagger2 opts type d₂)
    ∧ (∀ (opts : Opts) (type : String) (doc : SwaggerDoc) (v : V2Data)
        (heap : List SwaggerParam),
        getViewForSwagger2 opts type doc = .ok (v, heap) →
        v.methods.map (fun mt => (mt.path, mt.method)) = retainedOps doc)
    ∧ (∀ (tbl : List (String × Nat)) (isNode : Bool) (s s' : PState)
        (entries : List Nat),
        runParamsV2 tbl isNode s entries = .ok s' →
        s'.addrs = s.addrs
          ++ entries.filterMap (fun a => resolvedAddrV2 tbl isNode s.store a))
    ∧ (∀ (opts : Opts) (isNode : Bool) (doc : SwaggerDoc) (path m : String)
        (op : SwaggerOp) (gp : List Nat) (st st' : BState),
        processOpV2 opts isNode doc path m op gp st = .ok st' →
        ∃ mth : Method,
          st'.methods = st.methods ++ [mth] ∧
          mth.parameters = (op.parameters.getD [] ++ gp).filterMap
            (fun a => resolvedAddrV2 doc.parameters isNode st.store a)) := by
  refine ⟨?_, ?_, ?_, ?_⟩
  · intro _ _ d₁ d₂ h
    rw [h]
  · intro opts type doc v heap hok
    simp only [getViewForSwagger2] at hok
    split at hok
    · exact absurd hok (by simp)
    · rename_i st1 hrun
      simp only [Except.ok.injEq, Prod.mk.injEq] at hok
      obtain ⟨hv, -⟩ := hok
      obtain ⟨h1, -, -, -, -⟩ := runPathsV2_ok hrun
      rw [← hv]
      show st1.methods.map (fun mt => (mt.path, mt.method)) = retainedOps doc
      simpa [retainedOps] using h1
  · intro tbl isNode s s' entries h
    exact runParamsV2_addr_order h
  · intro opts isNode doc path m op gp st st' h
    exact processOpV2_param_order h

/-- C8, witness: determinism, method-order preservation, the
declaration-order parameter collection, and the per-method parameter
list, each at a concrete input. -/
theorem C8_witness :
    (getViewForSwagger2 {} "node" docDup = getViewForSwagger2 {} "node" docDup)
    ∧ (viewOrDefault {} "node" docShared).1.methods.map (fun mt => (mt.path, mt.method))
        = retainedOps docShared
    ∧ (pstateOrDefault (runParamsV2 [] true { store := [sharedNode] } [0]) { store := [] }).addrs
        = ({ store := [sharedNode] } : PState).addrs
          ++ [0].filterMap
            (fun a => resolvedAddrV2 [] true ({ store := [sharedNode] } : PState).store a)
    ∧ ∃ mth : Method,
        (stateOrDefault
            (processOpV2 {} true docShared "/w" "get" { operationId := some "g" } [0]
              { store := docShared.pstore })
            { store := [] }).methods
          = ({ store := docShared.pstore } : BState).methods ++ [mth] ∧
        mth.parameters
          = (({ operationId := some "g" } : SwaggerOp).parameters.getD [] ++ [0]).filterMap
            (fun a => resolvedAddrV2 docShared.parameters true
              ({ store := docShared.pstore } : BState).store a) :=
  ⟨C8_builder_deterministic_ordered.1 {} "node" docDup docDup rfl,
   C8_builder_deterministic_ordered.2.1 {} "node" docShared _ _ rfl,
   C8_builder_deterministic_ordered.2.2.1 [] true { store := [sharedNode] } _ [0] rfl,
   C8_builder_deterministic_ordered.2.2.2 {} true docShared "/w" "get"
     { operationId := some "g" } [0] { store := docShared.pstore } _ rfl⟩

/-- C9 (confirmed).  Within one build the three document-wide security
flags only ever go from `false` to `true`: the path walk never resets a
promoted flag, an operation whose computed secure types contain a kind
(and which is secure) promotes the document flag, and a scheme-table
entry whose name occurs in the merged requirement keys contributes its
kind to the operation's secure types. -/
theorem C9_security_flags_monotone_promotion :
    (∀ (opts : Opts) (isNode : Bool) (doc : SwaggerDoc)
        (paths : List (String × List (String × PathEntry))) (st st' : BState),
        runPathsV2 opts isNode doc st paths = .ok st' →
        (st.isSecureToken = true → st'.isSecureToken = true) ∧
        (st.isSecureApiKey = true → st'.isSecureApiKey = true) ∧
        (st.isSecureBasic = true → st'.isSecureBasic = true))
    ∧ (∀ (opts : Opts) (isNode : Bool) (doc : SwaggerDoc) (path m : String)
        (op : SwaggerOp) (gp : List Nat) (st st' : BState),
        processOpV2 opts isNode doc path m op gp st = .ok st' →
        (doc.security.isSome || op.security.isSome) = true →
        ((secureTypesV2 doc.securityDefinitions doc.security op.security).contains "oauth2" = true →
          st'.isSecureToken = true) ∧
        ((secureTypesV2 doc.securityDefinitions doc.security op.security).contains "apiKey" = true →
          st'.isSecureApiKey = true) ∧
        ((secureTypesV2 doc.securityDefinitions doc.security op.security).contains "basic" = true →
          st'.isSecureBasic = true))
    ∧ (∀ (schemes : List (String × String)) (docSec opSec : Option (List (List String)))
        (sk kind : String),
        (sk, kind) ∈ schemes → sk ∈ mergedKeysV3 docSec opSec →
        kind ∈ secureTypesV3 (some schemes) docSec opSec) := by
  refine ⟨?_, ?_, ?_⟩
  · intro opts isNode doc paths st st' h
    obtain ⟨-, -, h3, h4, h5⟩ := runPathsV2_ok h
    exact ⟨h3, h4, h5⟩
  · intro opts isNode doc path m op gp st st' h hsec
    exact processOpV2_promotes h hsec
  · intro schemes docSec opSec sk kind hmem hkey
    unfold secureTypesV3
    simp only [Option.isSome_some, Bool.true_or, if_true]
    exact List.mem_map.2 ⟨(sk, kind), List.mem_filter.2 ⟨hmem, by simpa using hkey⟩, rfl⟩

/-- C9, witness: a promoted flag survives an (empty) remainder of the
walk, a secure `oauth2` operation promotes the document flag, and a
merged scheme name resolves to its kind. -/
theorem C9_witness :
    ((stateOrDefault
        (runPathsV2 {} true docSecEx { store := [], isSecureToken := true } [])
        { store := [] }).isSecureToken = true)
    ∧ ((stateOrDefault
        (processOpV2 {} true docSecEx "/a" "get" {} [] { store := [] })
        { store := [] }).isSecureToken = true)
    ∧ "oauth2" ∈ secureTypesV3 (some [("k", "oauth2")]) (some [["k"]]) none := by
  refine ⟨?_, ?_, ?_⟩
  · exact (C9_security_flags_monotone_promotion.1 {} true docSecEx [] _ _ rfl).1 rfl
  · exact (C9_security_flags_monotone_promotion.2.1 {} true docSecEx "/a" "get" {} [] _ _
      rfl (by decide)).1 (by decide)
  · exact C9_security_flags_monotone_promotion.2.2 [("k", "oauth2")] (some [["k"]]) none
      "k" "oauth2" (by decide) (by decide)

/-- C10 (confirmed).  Parameter classification mutates the heap node in
place and the method stores the node's address: every directly processed
entry's address is pushed onto the method's parameter list; in the
concrete two-operation path of `docShared` both methods alias the single
shared node (address 0), whose final heap value is the classifier
applied twice (the later operation's write is what both methods see);
and the V3 loop likewise writes `default`/`defaultSerialized` etc. onto
the shared node, the second run overwriting the first. -/
theorem C10_parameter_nodes_aliased_and_mutated :
    (∀ (tbl : List (String × Nat)) (isNode : Bool) (s : PState) (entries : List Nat)
        (s' : PState),
        runParamsV2 tbl isNode s entries = .ok s' →
        ∀ a ∈ entries, goodEntryV2 isNode s.store a = true → a ∈ s'.addrs)
    ∧ (viewOrDefault {} "node" docShared).1.methods.map (fun mt => mt.parameters) = [[0], [0]]
    ∧ (viewOrDefault {} "node" docShared).2.get? 0
        = some (classifyParamV2 (classifyParamV2 sharedNode))
    ∧ getViewForSwagger2 {} "node" docShared = .ok (viewOrDefault {} "node" docShared)
    ∧ (match runParamsV3 none true { store := [sharedNode3] } [0] with
        | .ok s1 => runParamsV3 none true { store := s1.store } [0]
        | .error e => .error e)
        = .ok { store := [classifyParamV3 (classifyParamV3 sharedNode3)], addrs := [0] } :=
  ⟨fun tbl isNode s entries s' h => runParamsV2_good_mem h, by decide, by decide, rfl, rfl⟩

/-- C10, witness: the shared node's address is collected by the loop. -/
theorem C10_witness :
    0 ∈ (pstateOrDefault (runParamsV2 [] true { store := [sharedNode] } [0])
          { store := [] }).addrs :=
  C10_parameter_nodes_aliased_and_mutated.1 [] true { store := [sharedNode] } [0] _ rfl 0
    (by decide) (by decide)

end Codegen
